import Mathlib

/-!
Verification of the FLRA Alexa skill notification pipeline.

This file gives a shallow embedding, in Lean 4, of the decision logic of the
two lambda functions of the repository:

* `src/code/scheduler/app.py` — feed ingestion with link-based deduplication
  (`process_feed`, `item_exists`), best-effort summarization
  (`summarize_text`) and entity extraction (`detect_entities`), and
  notification planning (`notify_users`, `is_user_due_for_notification`);
* `src/code/alexaSkill/app.py` — the query handler
  (`handle_get_latest_updates`) and the preference writer
  (`handle_set_preference`).

Modelling conventions:
* Timestamps are natural numbers counting seconds; `timedelta(days=1)` is
  86400 and `timedelta(days=7)` is 604800.  Python compares `datetime`
  differences against these thresholds; natural subtraction `now - last`
  agrees with the Python comparison because a negative Python difference and
  a truncated-to-zero natural difference both fail `>= threshold`.
* DynamoDB tables are lists of records; an attribute that may be absent from
  an item is an `Option` field.  `get(key, default)` is `Option.getD`.
* External HTTP calls (the LLM endpoint, Comprehend) are oracle functions
  passed as parameters; a call that raises is an oracle returning
  `Except.error`.
* `datetime.utcnow()` reads are passed in explicitly as `now` parameters;
  for the claim about the implicit wall-clock read the ambient clock is made
  a `World` record threaded through the function.
-/

/-! ### Substring containment (Python `in` on strings) -/

/-- `charsStartWith n h` is true when the character list `n` is an initial
segment of `h`; this is the primitive from which Python's substring test
`n in h` is built. -/
def charsStartWith : List Char → List Char → Bool
  | [], _ => true
  | _ :: _, [] => false
  | a :: as, b :: bs => a == b && charsStartWith as bs

/-- `charsContain n h` is true when the character list `n` occurs
contiguously somewhere in `h`. -/
def charsContain (needle : List Char) : List Char → Bool
  | [] => charsStartWith needle []
  | c :: rest => charsStartWith needle (c :: rest) || charsContain needle rest

/-- Python's `needle in haystack` on strings: case-sensitive contiguous
substring containment. -/
def strContains (haystack needle : String) : Bool :=
  charsContain needle.data haystack.data

theorem charsStartWith_iff (n h : List Char) :
    charsStartWith n h = true ↔ ∃ t, h = n ++ t := by
  induction n generalizing h with
  | nil => simp [charsStartWith]
  | cons a as ih =>
    cases h with
    | nil => simp [charsStartWith]
    | cons b bs =>
      simp only [charsStartWith, Bool.and_eq_true, beq_iff_eq, ih, List.cons_append,
        List.cons.injEq]
      constructor
      · rintro ⟨rfl, t, rfl⟩
        exact ⟨t, rfl, rfl⟩
      · rintro ⟨t, rfl, rfl⟩
        exact ⟨rfl, t, rfl⟩

theorem charsContain_iff (n h : List Char) :
    charsContain n h = true ↔ ∃ s t, h = s ++ n ++ t := by
  induction h with
  | nil =>
    simp only [charsContain, charsStartWith_iff]
    constructor
    · rintro ⟨t, ht⟩
      exact ⟨[], t, by simpa using ht⟩
    · rintro ⟨s, t, hst⟩
      rcases List.append_eq_nil.mp (List.append_eq_nil.mp hst.symm).1 with ⟨rfl, rfl⟩
      exact ⟨t, by simpa using hst⟩
  | cons c rest ih =>
    simp only [charsContain, Bool.or_eq_true, charsStartWith_iff, ih]
    constructor
    · rintro (⟨t, ht⟩ | ⟨s, t, hst⟩)
      · exact ⟨[], t, by simpa using ht⟩
      · exact ⟨c :: s, t, by simp [hst]⟩
    · rintro ⟨s, t, hst⟩
      cases s with
      | nil => exact Or.inl ⟨t, by simpa using hst⟩
      | cons c' s' =>
        rcases List.cons.injEq .. ▸ hst with ⟨rfl, hrest⟩
        exact Or.inr ⟨s', t, by simpa using hrest⟩

/-- `strContains` is exactly the existence of a substring split of the
underlying character lists. -/
theorem strContains_iff (haystack needle : String) :
    strContains haystack needle = true ↔
      ∃ s t, haystack.data = s ++ needle.data ++ t :=
  charsContain_iff needle.data haystack.data

/-! ### Due-ness check (`is_user_due_for_notification`, scheduler lines 173-189) -/

/-- Seconds in `timedelta(days=1)`. -/
def daySeconds : Nat := 86400

/-- Seconds in `timedelta(days=7)`. -/
def weekSeconds : Nat := 7 * 86400

/-- Embedding of `is_user_due_for_notification(frequency, last_notified)`
from `src/code/scheduler/app.py`.  The `now` argument stands for the
`datetime.utcnow()` read inside the Python function; `last_notified` is the
already-parsed ISO timestamp (`None` when the attribute is absent). -/
def is_user_due_for_notification (frequency : String) (last_notified : Option Nat)
    (now : Nat) : Bool :=
  match last_notified with
  | none => true
  | some last_dt =>
    if frequency == "daily" then decide (now - last_dt ≥ daySeconds)
    else if frequency == "weekly" then decide (now - last_dt ≥ weekSeconds)
    else decide (now - last_dt ≥ daySeconds)

/-- Modelled from the spec (§4.1 `is_due`), for comparison with the source
function: true when `last_notified_at` is absent, else true iff
`now - last_notified_at` is at least the threshold, which is 1 day for
"daily" and any unrecognized value and 7 days for "weekly". -/
def is_due_spec (frequency : String) (last_notified : Option Nat) (now : Nat) : Bool :=
  match last_notified with
  | none => true
  | some t =>
    decide (now - t ≥ if frequency == "weekly" then weekSeconds else daySeconds)

/-- Once due, a user stays due at any later instant if the stored
`last_notified` timestamp does not change. -/
theorem is_user_due_mono (frequency : String) (last : Option Nat) (now now' : Nat)
    (hle : now ≤ now')
    (h : is_user_due_for_notification frequency last now = true) :
    is_user_due_for_notification frequency last now' = true := by
  cases last with
  | none => rfl
  | some t =>
    have hsub : ∀ k : Nat, k ≤ now - t → k ≤ now' - t := fun k hk =>
      le_trans hk (Nat.sub_le_sub_right hle t)
    simp only [is_user_due_for_notification] at h ⊢
    by_cases hd : (frequency == "daily") = true
    · simp only [hd, if_true, decide_eq_true_eq] at h ⊢
      exact hsub _ h
    · by_cases hw : (frequency == "weekly") = true
      · simp only [hd, hw, if_true, Bool.false_eq_true, if_false,
          decide_eq_true_eq] at h ⊢
        exact hsub _ h
      · simp only [hd, hw, Bool.false_eq_true, if_false, decide_eq_true_eq] at h ⊢
        exact hsub _ h

/-! ### Data model -/

/-- An entity pair stored by `detect_entities` (`{"Text": ..., "Type": ...}`). -/
structure EntityPair where
  text : String
  etype : String
  deriving Repr, DecidableEq

/-- A record of the feed table (`feed_table.put_item` in `process_feed`,
scheduler lines 61-73).  `createdTimestamp` abstracts the ISO
`CreatedTimestamp` string as a number so that the Alexa-side descending sort
is a numeric sort. -/
structure StoredItem where
  itemId : String
  title : String
  link : String
  publishedDate : String
  content : String
  summary : String
  entities : List EntityPair
  feedSource : String
  createdTimestamp : Nat
  deriving Repr, DecidableEq

/-- An element of the `new_items` list built by `process_feed`
(scheduler lines 74-81). -/
structure Item where
  itemId : String
  title : String
  link : String
  summary : String
  publishedDate : String
  feedSource : String
  deriving Repr, DecidableEq

/-- A record of the preference table.  Attributes other than the `UserId`
key may be absent, hence the `Option` fields; `lastNotifiedTimestamp` holds
the parsed ISO timestamp. -/
structure PrefRecord where
  userId : String
  notificationFrequency : Option String
  preferredTopic : Option String
  updatedTimestamp : Option String
  lastNotifiedTimestamp : Option Nat
  deriving Repr, DecidableEq

/-- One proactive-notification call made by `notify_users`: the user it
targets and the filtered items it reports. -/
structure NotificationPlan where
  userId : String
  items : List Item
  deriving Repr, DecidableEq

/-! ### Relevant-item selection (scheduler lines 156-159) -/

/-- Embedding of the inline filtering loop of `notify_users`:

    filtered_items = []
    for item in new_items:
        if topic in item["FeedSource"]:
            filtered_items.append(item)

(the spec names this loop `select_relevant_items`). -/
def select_relevant_items (new_items : List Item) (topic : String) : List Item :=
  new_items.foldl
    (fun acc item => if strContains item.feedSource topic then acc ++ [item] else acc)
    []

theorem select_relevant_items_go (topic : String) (l : List Item) (acc : List Item) :
    l.foldl
      (fun acc item => if strContains item.feedSource topic then acc ++ [item] else acc)
      acc
    = acc ++ l.filter (fun item => strContains item.feedSource topic) := by
  induction l generalizing acc with
  | nil => simp
  | cons a l ih =>
    simp only [List.foldl_cons, List.filter_cons]
    by_cases h : strContains a.feedSource topic = true
    · simp [h, ih]
    · simp [h, ih]

/-- The accumulate-append loop is `List.filter` on the substring test. -/
theorem select_relevant_items_eq_filter (new_items : List Item) (topic : String) :
    select_relevant_items new_items topic
      = new_items.filter (fun item => strContains item.feedSource topic) := by
  simpa using select_relevant_items_go topic new_items []

/-! ### Notification planning (`notify_users`, scheduler lines 133-170) -/

/-- Embedding of the per-user loop of `notify_users`.  The input list plays
the role of `prefs_table.scan()`; the first component of the result collects
the `send_proactive_notification` calls that are made (as
`NotificationPlan`s, in loop order), and the second component is the
preference table after the loop's `update_item` writes, record by record.
`now` stands for the `datetime.utcnow()` reads of the run. -/
def notify_users (new_items : List Item) (now : Nat) :
    List PrefRecord → List NotificationPlan × List PrefRecord
  | [] => ([], [])
  | user_pref :: rest =>
    let out := notify_users new_items now rest
    let frequency := user_pref.notificationFrequency.getD "daily"
    let topic := user_pref.preferredTopic.getD "decisions"
    if !is_user_due_for_notification frequency user_pref.lastNotifiedTimestamp now then
      (out.1, user_pref :: out.2)
    else
      let filtered_items := select_relevant_items new_items topic
      if filtered_items.isEmpty then
        (out.1, user_pref :: out.2)
      else
        (⟨user_pref.userId, filtered_items⟩ :: out.1,
         { user_pref with lastNotifiedTimestamp := some now } :: out.2)

/-! ### Ingestion (`process_feed`, `item_exists`, `summarize_text`,
`detect_entities`, scheduler lines 50-130) -/

/-- The prompt string built by `summarize_text` (scheduler lines 96-101). -/
def mkPrompt (title content : String) : String :=
  "Summarize the following FLRA content in concise bullet points: Title: "
    ++ title ++ " Content: " ++ content
    ++ " Make it 3-5 bullet points highlighting key info."

/-- Embedding of `summarize_text(title, content, api_key)`.  The `llm`
oracle stands for the POST to the LLM endpoint followed by `.json()`:
`Except.error` is a raised exception, `Except.ok none` a JSON response with
no "summary" key, and `Except.ok (some s)` a response carrying summary `s`. -/
def summarize_text (title content : String)
    (llm : String → Except String (Option String)) : String :=
  match llm (mkPrompt title content) with
  | Except.ok summaryField => summaryField.getD "No summary available."
  | Except.error _ => "Summary not available."

/-- A raw entity as returned by the Comprehend oracle, before the
projection to `{"Text", "Type"}` pairs. -/
structure RawEntity where
  text : String
  etype : String
  score : Nat
  deriving Repr, DecidableEq

/-- Embedding of `detect_entities(content)`.  The `comp` oracle stands for
`comprehend.detect_entities`; `Except.error` is a raised exception. -/
def detect_entities (comp : String → Except String (List RawEntity))
    (content : String) : List EntityPair :=
  match comp content with
  | Except.ok es => es.map (fun e => ⟨e.text, e.etype⟩)
  | Except.error _ => []

/-- Embedding of `item_exists(item_id)`: a key lookup in the feed table. -/
def item_exists (feed_table : List StoredItem) (item_id : String) : Bool :=
  feed_table.any (fun r => r.itemId == item_id)

/-- A fetched feed entry (`feedparser` entry); `published` is `None` when
the entry has no `published` attribute. -/
structure Entry where
  link : String
  title : String
  description : String
  published : Option String
  deriving Repr, DecidableEq

/-- The feed-table record `process_feed` writes for a new entry
(scheduler lines 61-73). -/
def storedOfEntry (rss_url : String) (llm : String → Except String (Option String))
    (comprehendOn : Bool) (comp : String → Except String (List RawEntity))
    (nowStr : String) (createdAt : Nat) (entry : Entry) : StoredItem :=
  { itemId := entry.link
    title := entry.title
    link := entry.link
    publishedDate := entry.published.getD nowStr
    content := entry.description
    summary := summarize_text entry.title entry.description llm
    entities := if comprehendOn then detect_entities comp entry.description else []
    feedSource := rss_url
    createdTimestamp := createdAt }

/-- The `new_items` element `process_feed` appends for a new entry
(scheduler lines 74-81); note the `published` default is `""` here, unlike
the stored record. -/
def newItemOfEntry (rss_url : String) (llm : String → Except String (Option String))
    (entry : Entry) : Item :=
  { itemId := entry.link
    title := entry.title
    link := entry.link
    summary := summarize_text entry.title entry.description llm
    publishedDate := entry.published.getD ""
    feedSource := rss_url }

/-- Embedding of `process_feed(rss_url, llm_api_key)`.  The entry list is
what `feedparser.parse` returned; the `feed_table` argument is threaded
through the `put_item` writes.  Result: the feed table after the run, the
`new_items` list, and the number of LLM summarization calls made. -/
def process_feed (rss_url : String) (llm : String → Except String (Option String))
    (comprehendOn : Bool) (comp : String → Except String (List RawEntity))
    (nowStr : String) (createdAt : Nat) :
    List Entry → List StoredItem → List StoredItem × List Item × Nat
  | [], feed_table => (feed_table, [], 0)
  | entry :: rest, feed_table =>
    if item_exists feed_table entry.link then
      process_feed rss_url llm comprehendOn comp nowStr createdAt rest feed_table
    else
      let stored := storedOfEntry rss_url llm comprehendOn comp nowStr createdAt entry
      let out := process_feed rss_url llm comprehendOn comp nowStr createdAt rest
        (feed_table ++ [stored])
      (out.1, newItemOfEntry rss_url llm entry :: out.2.1, out.2.2 + 1)

/-- `process_feed` only ever appends to the feed table. -/
theorem process_feed_table_mono (rss_url : String)
    (llm : String → Except String (Option String)) (comprehendOn : Bool)
    (comp : String → Except String (List RawEntity)) (nowStr : String)
    (createdAt : Nat) (entries : List Entry) (feed_table : List StoredItem) :
    ∃ ext, (process_feed rss_url llm comprehendOn comp nowStr createdAt
      entries feed_table).1 = feed_table ++ ext := by
  induction entries generalizing feed_table with
  | nil => exact ⟨[], by simp [process_feed]⟩
  | cons e rest ih =>
    by_cases h : item_exists feed_table e.link = true
    · rcases ih feed_table with ⟨ext, hext⟩
      exact ⟨ext, by simp [process_feed, h, hext]⟩
    · rcases ih (feed_table ++
        [storedOfEntry rss_url llm comprehendOn comp nowStr createdAt e]) with ⟨ext, hext⟩
      refine ⟨storedOfEntry rss_url llm comprehendOn comp nowStr createdAt e :: ext, ?_⟩
      simp only [process_feed, h, Bool.false_eq_true, if_false]
      simp [hext]

/-! ### Alexa query side (`handle_get_latest_updates`, alexaSkill lines 59-89) -/

/-- The descending `CreatedTimestamp` order used by
`sorted(..., key=lambda x: x["CreatedTimestamp"], reverse=True)`. -/
def createdGE (a b : StoredItem) : Prop :=
  b.createdTimestamp ≤ a.createdTimestamp

instance : DecidableRel createdGE := fun a b =>
  inferInstanceAs (Decidable (b.createdTimestamp ≤ a.createdTimestamp))

instance : IsTotal StoredItem createdGE :=
  ⟨fun a b => Nat.le_total b.createdTimestamp a.createdTimestamp⟩

instance : IsTrans StoredItem createdGE :=
  ⟨fun _ _ _ hab hbc => le_trans hbc hab⟩

/-- Embedding of the item-selection part of `handle_get_latest_updates`:
the topic preference (default `"decisions"`), the client-side substring
filter over the scanned feed table, the stable descending sort on
`CreatedTimestamp` (Python's `sorted` is stable; so is insertion sort), and
the top-3 truncation.  The speech formatting around it is not modelled. -/
def handle_get_latest_updates (feed_table : List StoredItem)
    (user_prefs : Option PrefRecord) : List StoredItem :=
  let topic := (user_prefs.bind PrefRecord.preferredTopic).getD "decisions"
  let filtered := feed_table.filter (fun it => strContains it.feedSource topic)
  let items_sorted := filtered.insertionSort createdGE
  items_sorted.take 3

/-! ### Alexa preference side (`handle_set_preference`, alexaSkill lines 91-106) -/

/-- The item `handle_set_preference` writes: exactly the attributes
`UserId`, `NotificationFrequency`, `PreferredTopic`, `UpdatedTimestamp`
(slots default to `"daily"` / `"decisions"`), and no
`LastNotifiedTimestamp`. -/
def set_preference_record (user_id : String) (frequencySlot topicSlot : Option String)
    (nowIso : String) : PrefRecord :=
  { userId := user_id
    notificationFrequency := some (frequencySlot.getD "daily")
    preferredTopic := some (topicSlot.getD "decisions")
    updatedTimestamp := some nowIso
    lastNotifiedTimestamp := none }

/-- DynamoDB `put_item` on the preference table: a full replace of the
record with the same key, or an insert when the key is new. -/
def prefs_put_item (prefs_table : List PrefRecord) (item : PrefRecord) :
    List PrefRecord :=
  if prefs_table.any (fun p => p.userId == item.userId) then
    prefs_table.map (fun p => if p.userId == item.userId then item else p)
  else prefs_table ++ [item]

/-- Embedding of `handle_set_preference`'s effect on the preference table. -/
def handle_set_preference (prefs_table : List PrefRecord) (user_id : String)
    (frequencySlot topicSlot : Option String) (nowIso : String) : List PrefRecord :=
  prefs_put_item prefs_table (set_preference_record user_id frequencySlot topicSlot nowIso)

/-! ### The ambient clock of `is_user_due_for_notification` -/

/-- The ambient state visible to `is_user_due_for_notification`: the wall
clock that `datetime.utcnow()` reads. -/
structure World where
  clock : Nat
  deriving Repr, DecidableEq

/-- `is_user_due_for_notification` with its real Python signature: only
`frequency` and `last_notified` are parameters, and the current time is
read from the ambient `World` inside the function (line 182,
`now = datetime.utcnow()`).  The returned `World` exposes any state change
(there is none). -/
def is_user_due_run (frequency : String) (last_notified : Option Nat)
    (w : World) : Bool × World :=
  match last_notified with
  | none => (true, w)
  | some last_dt =>
    let now := w.clock
    (if frequency == "daily" then decide (now - last_dt ≥ daySeconds)
     else if frequency == "weekly" then decide (now - last_dt ≥ weekSeconds)
     else decide (now - last_dt ≥ daySeconds), w)

/-- The stateful reading agrees with the three-argument embedding. -/
theorem is_user_due_run_eq (frequency : String) (last_notified : Option Nat)
    (w : World) :
    is_user_due_run frequency last_notified w
      = (is_user_due_for_notification frequency last_notified w.clock, w) := by
  cases last_notified <;> rfl

/-! ### Shared evaluation lemmas -/

/-- The empty needle is contained in every haystack (`"" in s` is `True` in
Python). -/
theorem strContains_empty_needle (haystack : String) :
    strContains haystack "" = true := by
  show charsContain [] haystack.data = true
  induction haystack.data with
  | nil => rfl
  | cons c rest ih => simp [charsContain, charsStartWith]

/-! ### Claims -/

/-- C1: for every frequency string, optional last-notified timestamp, and
current time, the due-ness check returns true when the last-notified
timestamp is absent, and otherwise returns true iff `now - last_notified`
is at least 1 day for "daily" or any unrecognized frequency, and at least
7 days for "weekly" — i.e. the source function coincides with the
spec-worded `is_due_spec`. -/
theorem C1_due_check (frequency : String) (last_notified : Option Nat) (now : Nat) :
    is_user_due_for_notification frequency last_notified now
      = is_due_spec frequency last_notified now := by
  cases last_notified with
  | none => rfl
  | some t =>
    simp only [is_user_due_for_notification, is_due_spec]
    by_cases hd : (frequency == "daily") = true
    · have : frequency = "daily" := by simpa using hd
      subst this
      rfl
    · by_cases hw : (frequency == "weekly") = true
      · simp [hd, hw]
      · simp [hd, hw]

/-- C2: a preference record that is due but has no matching new item
contributes no notification plan, passes through the loop with its
`LastNotifiedTimestamp` attribute untouched, and — with the stale
timestamp unchanged — is still evaluated as due at any later run time. -/
theorem C2_due_no_match (new_items : List Item) (now : Nat)
    (rest : List PrefRecord) (p : PrefRecord)
    (hdue : is_user_due_for_notification (p.notificationFrequency.getD "daily")
      p.lastNotifiedTimestamp now = true)
    (hempty : select_relevant_items new_items (p.preferredTopic.getD "decisions") = []) :
    (notify_users new_items now (p :: rest)).1 = (notify_users new_items now rest).1 ∧
    (notify_users new_items now (p :: rest)).2
      = p :: (notify_users new_items now rest).2 ∧
    ∀ now', now ≤ now' →
      is_user_due_for_notification (p.notificationFrequency.getD "daily")
        p.lastNotifiedTimestamp now' = true := by
  refine ⟨?_, ?_, fun now' h => is_user_due_mono _ _ _ _ h hdue⟩ <;>
    simp [notify_users, hdue, hempty]

/-- C3: a preference record that is due and has at least one matching new
item yields exactly one plan — holding all the matching items, in order —
and its `LastNotifiedTimestamp` is set to the run's current timestamp. -/
theorem C3_due_match (new_items : List Item) (now : Nat)
    (rest : List PrefRecord) (p : PrefRecord)
    (hdue : is_user_due_for_notification (p.notificationFrequency.getD "daily")
      p.lastNotifiedTimestamp now = true)
    (hne : select_relevant_items new_items (p.preferredTopic.getD "decisions") ≠ []) :
    (notify_users new_items now (p :: rest)).1
      = ⟨p.userId, select_relevant_items new_items (p.preferredTopic.getD "decisions")⟩
          :: (notify_users new_items now rest).1 ∧
    (notify_users new_items now (p :: rest)).2
      = { p with lastNotifiedTimestamp := some now }
          :: (notify_users new_items now rest).2 := by
  constructor <;> simp [notify_users, hdue, List.isEmpty_iff, hne]

/-- C4: the relevant-item selection is exactly `List.filter` on
case-sensitive substring containment of the topic in the item's source, so
it is an order-preserving subsequence of the input, and the Boolean test
agrees with the mathematical substring property. -/
theorem C4_selection_is_filter (new_items : List Item) (topic : String) :
    select_relevant_items new_items topic
      = new_items.filter (fun item => strContains item.feedSource topic) ∧
    List.Sublist (select_relevant_items new_items topic) new_items ∧
    ∀ item : Item,
      (strContains item.feedSource topic = true ↔
        ∃ s t, item.feedSource.data = s ++ topic.data ++ t) := by
  refine ⟨select_relevant_items_eq_filter new_items topic, ?_, fun item =>
    strContains_iff item.feedSource topic⟩
  rw [select_relevant_items_eq_filter]
  exact List.filter_sublist new_items

/-- C5: the empty topic string matches every item, so selection with the
empty topic returns the whole input sequence unchanged. -/
theorem C5_empty_topic (new_items : List Item) :
    select_relevant_items new_items "" = new_items := by
  rw [select_relevant_items_eq_filter]
  exact List.filter_eq_self.mpr fun a _ => strContains_empty_needle a.feedSource

/-- Witness for C2 at a concrete input: a user with no stored timestamp is
due, the only new item's source does not contain the topic, and the record
passes through unchanged with no plan emitted. -/
theorem C2_witness :
    (notify_users [⟨"i", "t", "l", "s", "p", "feeds/press"⟩] 50
        [⟨"u1", none, none, none, none⟩]).1 = [] ∧
    (notify_users [⟨"i", "t", "l", "s", "p", "feeds/press"⟩] 50
        [⟨"u1", none, none, none, none⟩]).2 = [⟨"u1", none, none, none, none⟩] ∧
    is_user_due_for_notification "daily" none 99 = true := by
  have h := C2_due_no_match [⟨"i", "t", "l", "s", "p", "feeds/press"⟩] 50 []
    ⟨"u1", none, none, none, none⟩ (by decide) (by decide)
  exact ⟨by rw [h.1]; rfl, by rw [h.2.1]; rfl, h.2.2 99 (by decide)⟩

/-- Witness for C3 at a concrete input: a due user whose topic matches the
single new item gets exactly one plan with that item and a refreshed
timestamp. -/
theorem C3_witness :
    (notify_users [⟨"i", "t", "l", "s", "p", "feeds/decisions"⟩] 50
        [⟨"u1", none, none, none, none⟩]).1
      = [⟨"u1", [⟨"i", "t", "l", "s", "p", "feeds/decisions"⟩]⟩] ∧
    (notify_users [⟨"i", "t", "l", "s", "p", "feeds/decisions"⟩] 50
        [⟨"u1", none, none, none, none⟩]).2
      = [⟨"u1", none, none, none, some 50⟩] := by
  have h := C3_due_match [⟨"i", "t", "l", "s", "p", "feeds/decisions"⟩] 50 []
    ⟨"u1", none, none, none, none⟩ (by decide) (by decide)
  exact ⟨by rw [h.1]; rfl, by rw [h.2]; rfl⟩

/-- C6: an entry whose link-derived item id is already in the feed table is
neither summarized nor persisted — processing it is identical to not
fetching it at all, whatever its title or content — while an absent entry
is summarized exactly once, emitted as a new item, and persisted. -/
theorem C6_ingestion_dedup (rss_url : String)
    (llm : String → Except String (Option String)) (comprehendOn : Bool)
    (comp : String → Except String (List RawEntity)) (nowStr : String)
    (createdAt : Nat) (entry : Entry) (rest : List Entry)
    (feed_table : List StoredItem) :
    (item_exists feed_table entry.link = true →
      process_feed rss_url llm comprehendOn comp nowStr createdAt
          (entry :: rest) feed_table
        = process_feed rss_url llm comprehendOn comp nowStr createdAt
            rest feed_table) ∧
    (item_exists feed_table entry.link = false →
      (process_feed rss_url llm comprehendOn comp nowStr createdAt
          (entry :: rest) feed_table).2.1
        = newItemOfEntry rss_url llm entry
            :: (process_feed rss_url llm comprehendOn comp nowStr createdAt rest
              (feed_table
                ++ [storedOfEntry rss_url llm comprehendOn comp nowStr createdAt entry])).2.1 ∧
      (process_feed rss_url llm comprehendOn comp nowStr createdAt
          (entry :: rest) feed_table).2.2
        = (process_feed rss_url llm comprehendOn comp nowStr createdAt rest
            (feed_table
              ++ [storedOfEntry rss_url llm comprehendOn comp nowStr createdAt entry])).2.2
          + 1 ∧
      storedOfEntry rss_url llm comprehendOn comp nowStr createdAt entry
        ∈ (process_feed rss_url llm comprehendOn comp nowStr createdAt
            (entry :: rest) feed_table).1) := by
  constructor
  · intro h
    simp [process_feed, h]
  · intro h
    refine ⟨?_, ?_, ?_⟩
    · simp [process_feed, h]
    · simp [process_feed, h]
    · simp only [process_feed, h, Bool.false_eq_true, if_false]
      rcases process_feed_table_mono rss_url llm comprehendOn comp nowStr createdAt rest
        (feed_table
          ++ [storedOfEntry rss_url llm comprehendOn comp nowStr createdAt entry])
        with ⟨ext, hext⟩
      rw [hext]
      simp

/-- Witness for C6 at concrete inputs: a table already holding link "L"
skips the re-fetched entry, and an empty table ingests it (one summarizer
call, one new item, one persisted record). -/
theorem C6_witness :
    process_feed "u" (fun _ => Except.ok (some "S")) false (fun _ => Except.ok [])
        "now" 7 [⟨"L", "T", "C", none⟩]
        [⟨"L", "T0", "L", "P", "C0", "S0", [], "u", 3⟩]
      = ([⟨"L", "T0", "L", "P", "C0", "S0", [], "u", 3⟩], [], 0) ∧
    (process_feed "u" (fun _ => Except.ok (some "S")) false (fun _ => Except.ok [])
        "now" 7 [⟨"L", "T", "C", none⟩] []).2.2 = 1 := by
  have h1 := (C6_ingestion_dedup "u" (fun _ => Except.ok (some "S")) false
    (fun _ => Except.ok []) "now" 7 ⟨"L", "T", "C", none⟩ []
    [⟨"L", "T0", "L", "P", "C0", "S0", [], "u", 3⟩]).1 (by decide)
  have h2 := ((C6_ingestion_dedup "u" (fun _ => Except.ok (some "S")) false
    (fun _ => Except.ok []) "now" 7 ⟨"L", "T", "C", none⟩ [] []).2 (by decide)).2.1
  exact ⟨by rw [h1]; rfl, by rw [h2]; rfl⟩

/-- C7: the get-latest-updates query keeps exactly the scanned items whose
source contains the user's topic (default "decisions") as a substring,
sorts them descending by creation timestamp, and returns at most the first
three of that sorted list. -/
theorem C7_latest_updates (feed_table : List StoredItem)
    (user_prefs : Option PrefRecord) :
    ∃ l : List StoredItem,
      l.Perm (feed_table.filter (fun it => strContains it.feedSource
        ((user_prefs.bind PrefRecord.preferredTopic).getD "decisions"))) ∧
      List.Sorted createdGE l ∧
      handle_get_latest_updates feed_table user_prefs = l.take 3 ∧
      (handle_get_latest_updates feed_table user_prefs).length ≤ 3 := by
  refine ⟨(feed_table.filter (fun it => strContains it.feedSource
      ((user_prefs.bind PrefRecord.preferredTopic).getD "decisions"))).insertionSort
        createdGE, ?_, ?_, ?_, ?_⟩
  · exact List.perm_insertionSort createdGE _
  · exact List.sorted_insertionSort createdGE _
  · rfl
  · show ((List.insertionSort createdGE _).take 3).length ≤ 3
    rw [List.length_take]
    exact min_le_left 3 _

/-- Counterexample for C8 as stated: with the same frequency "daily" and
the same stored last-notified timestamp — the only parameters the Python
function receives — two invocations return different booleans when the
ambient wall clock differs, because the current time is obtained by an
implicit `datetime.utcnow()` read inside the function (scheduler line 182),
not supplied by the caller. -/
theorem C8_counterexample :
    (is_user_due_run "daily" (some 0) ⟨0⟩).1
      ≠ (is_user_due_run "daily" (some 0) ⟨172800⟩).1 := by
  decide

/-- C8 (amended): the due-ness check is side-effect-free and is a
deterministic function of its two parameters together with the wall-clock
instant it reads — two invocations observing the same clock value return
the same boolean and leave the world unchanged — but the current time is an
implicit `datetime.utcnow()` read inside the function, not a caller-supplied
argument. -/
theorem C8_due_check_deterministic (frequency : String) (last_notified : Option Nat)
    (w1 w2 : World) (h : w1.clock = w2.clock) :
    (is_user_due_run frequency last_notified w1).1
      = (is_user_due_run frequency last_notified w2).1 ∧
    (is_user_due_run frequency last_notified w1).2 = w1 := by
  rw [is_user_due_run_eq, is_user_due_run_eq, h]
  exact ⟨rfl, rfl⟩

/-- Witness for the amended C8 at a concrete input. -/
theorem C8_witness :
    (is_user_due_run "weekly" (some 2) ⟨700000⟩).1
      = (is_user_due_run "weekly" (some 2) ⟨700000⟩).1 ∧
    (is_user_due_run "weekly" (some 2) ⟨700000⟩).2 = ⟨700000⟩ :=
  C8_due_check_deterministic "weekly" (some 2) ⟨700000⟩ ⟨700000⟩ rfl

/-- C9: when the LLM call for an entry raises, the failure is absorbed at
the call site and the summary degrades to the fixed placeholder
"Summary not available."; a raising Comprehend call likewise degrades to
the empty entity list; and the entry is still emitted and persisted with
those placeholder values rather than aborting the run. -/
theorem C9_failure_degrades (rss_url : String)
    (llm : String → Except String (Option String)) (comprehendOn : Bool)
    (comp : String → Except String (List RawEntity)) (nowStr : String)
    (createdAt : Nat) (entry : Entry) (rest : List Entry)
    (feed_table : List StoredItem) (msg msg2 : String)
    (habs : item_exists feed_table entry.link = false)
    (hllm : llm (mkPrompt entry.title entry.description) = Except.error msg)
    (hcomp : comp entry.description = Except.error msg2) :
    summarize_text entry.title entry.description llm = "Summary not available." ∧
    detect_entities comp entry.description = [] ∧
    (storedOfEntry rss_url llm comprehendOn comp nowStr createdAt entry).summary
      = "Summary not available." ∧
    (storedOfEntry rss_url llm comprehendOn comp nowStr createdAt entry).entities
      = [] ∧
    (process_feed rss_url llm comprehendOn comp nowStr createdAt
        (entry :: rest) feed_table).2.1.head?
      = some (newItemOfEntry rss_url llm entry) ∧
    (newItemOfEntry rss_url llm entry).summary = "Summary not available." ∧
    storedOfEntry rss_url llm comprehendOn comp nowStr createdAt entry
      ∈ (process_feed rss_url llm comprehendOn comp nowStr createdAt
          (entry :: rest) feed_table).1 := by
  have hsum : summarize_text entry.title entry.description llm
      = "Summary not available." := by
    simp [summarize_text, hllm]
  have hdet : detect_entities comp entry.description = [] := by
    simp [detect_entities, hcomp]
  refine ⟨hsum, hdet, hsum, ?_, ?_, hsum, ?_⟩
  · simp [storedOfEntry, hdet]
  · simp [process_feed, habs]
  · simp only [process_feed, habs, Bool.false_eq_true, if_false]
    rcases process_feed_table_mono rss_url llm comprehendOn comp nowStr createdAt rest
      (feed_table
        ++ [storedOfEntry rss_url llm comprehendOn comp nowStr createdAt entry])
      with ⟨ext, hext⟩
    rw [hext]
    simp

/-- Witness for C9 at a concrete input: both oracles raise, the table is
empty, and the entry is ingested with the placeholder summary and no
entities. -/
theorem C9_witness :
    summarize_text "T" "C" (fun _ => Except.error "down")
      = "Summary not available." ∧
    detect_entities (fun _ => Except.error "down2") "C" = [] ∧
    (storedOfEntry "u" (fun _ => Except.error "down") true
        (fun _ => Except.error "down2") "now" 7 ⟨"L", "T", "C", none⟩).entities
      = [] := by
  have h := C9_failure_degrades "u" (fun _ => Except.error "down") true
    (fun _ => Except.error "down2") "now" 7 ⟨"L", "T", "C", none⟩ [] []
    "down" "down2" (by decide) rfl rfl
  exact ⟨h.1, h.2.1, h.2.2.2.1⟩

/-- C10: the set-preference handler writes a record holding only `UserId`,
`NotificationFrequency`, `PreferredTopic` and `UpdatedTimestamp`; since
DynamoDB `put_item` replaces the whole item, the record stored for that
user afterwards has no `LastNotifiedTimestamp`, and a user with no
last-notified timestamp is immediately due for every frequency and every
run time. -/
theorem C10_set_preference_resets (prefs_table : List PrefRecord)
    (user_id : String) (frequencySlot topicSlot : Option String) (nowIso : String)
    (frequency : String) (now : Nat) :
    ∀ p ∈ handle_set_preference prefs_table user_id frequencySlot topicSlot nowIso,
      p.userId = user_id →
        p = set_preference_record user_id frequencySlot topicSlot nowIso ∧
        p.lastNotifiedTimestamp = none ∧
        is_user_due_for_notification frequency p.lastNotifiedTimestamp now = true := by
  intro p hp hpid
  have hnew : ∀ h : p = set_preference_record user_id frequencySlot topicSlot nowIso,
      p = set_preference_record user_id frequencySlot topicSlot nowIso ∧
      p.lastNotifiedTimestamp = none ∧
      is_user_due_for_notification frequency p.lastNotifiedTimestamp now = true := by
    rintro rfl
    exact ⟨rfl, rfl, rfl⟩
  simp only [handle_set_preference, prefs_put_item] at hp
  by_cases hany : (prefs_table.any
      (fun q => q.userId == (set_preference_record user_id frequencySlot topicSlot
        nowIso).userId)) = true
  · rw [if_pos hany] at hp
    rcases List.mem_map.mp hp with ⟨q, _, hq⟩
    by_cases hqid : (q.userId
        == (set_preference_record user_id frequencySlot topicSlot nowIso).userId) = true
    · rw [if_pos hqid] at hq
      exact hnew hq.symm
    · rw [if_neg hqid] at hq
      exact absurd (by simpa [set_preference_record, ← hq] using hpid) hqid
  · rw [if_neg hany] at hp
    rcases List.mem_append.mp hp with hmem | hmem
    · exact absurd (List.any_eq_true.mpr
        ⟨p, hmem, by simp [set_preference_record, hpid]⟩) hany
    · exact hnew (List.mem_singleton.mp hmem)

/-- Witness for C10 at a concrete input: a stored record for user "u" with
a last-notified timestamp is fully overwritten; the record then stored for
"u" has none, and "u" is due immediately, even under "weekly". -/
theorem C10_witness :
    (set_preference_record "u" none none "T").lastNotifiedTimestamp = none ∧
    is_user_due_for_notification "weekly"
      (set_preference_record "u" none none "T").lastNotifiedTimestamp 0 = true := by
  have h := C10_set_preference_resets
    [⟨"u", some "daily", some "press", none, some 5⟩] "u" none none "T" "weekly" 0
    (set_preference_record "u" none none "T") (by decide) rfl
  exact ⟨h.2.1, h.2.2⟩
